import Mathlib

/-!
Verification of the ControlFlow task-graph and orchestration core.

The repository ships its settings module (`src/control_flow/settings.py`) and
its task test-suite (`tests/tasks/test_tasks.py`).  The task implementation
itself (`controlflow/tasks/task.py`) is not part of the sources provided, so
the task entity, its dependency graph, the context stack, agent resolution,
result validation and the run loop are modelled from the natural-language
specification (spec.md sections 3-4), with the repository's own tests taken as
the authority wherever they pin a behaviour.  Tasks are stored arena-style: a
central association list from instance keys (natural numbers) to task records,
as the spec's design notes themselves suggest for the back-reference sets.
-/

namespace ControlFlow

/-- Modelled from the spec: the Status enumeration of `controlflow.tasks.task`
(task.py is not among the provided sources).  `PENDING` (initial), `RUNNING`,
`SUCCESSFUL`, `FAILED`, `SKIPPED`. -/
inductive TaskStatus where
  | pending
  | running
  | successful
  | failed
  | skipped
deriving DecidableEq, Repr

/-- Modelled from the spec: INCOMPLETE = \x7bPENDING, RUNNING\x7d. -/
def INCOMPLETE_STATUSES : List TaskStatus := [.pending, .running]

/-- Modelled from the spec: COMPLETE = \x7bSUCCESSFUL, FAILED, SKIPPED\x7d. -/
def COMPLETE_STATUSES : List TaskStatus := [.successful, .failed, .skipped]

/-- Modelled from the spec: an agent is opaque to the task core; only its
identity matters for resolution. -/
structure Agent where
  name : String
deriving DecidableEq, Repr

/-- Modelled from the spec: the process-wide default agent (spec section 4.6,
resolution step 4). -/
def defaultAgent : Agent := { name := "Marvin" }

/-- Modelled from the spec: the dynamic values a task result can take in the
success pathway (integers, strings, or the Python `None`). -/
inductive PyVal where
  | int (n : Int)
  | str (s : String)
  | pyNone
deriving DecidableEq, Repr

/-- Modelled from the spec, section 9: `result_type` as a tagged variant -
unset (free-form), a primitive type, or a fixed ordered sequence of literal
option values. -/
inductive ResultType where
  | unset
  | intType
  | strType
  | options (opts : List PyVal)
deriving DecidableEq, Repr

/-- Modelled from the spec: an arbitrary nested mapping/sequence `context`
value; task references appear as arena keys. -/
inductive CtxVal where
  | taskRef (k : Nat)
  | str (s : String)
  | int (n : Int)
  | list (vs : List CtxVal)
  | dict (kvs : List (String × CtxVal))

/-- An empty context value. -/
def ctx0 : CtxVal := .list []

mutual

/-- Modelled from the spec, section 4.4: recursively walk a context value and
collect every task reference found at any nesting depth. -/
def collectTasks : CtxVal → List Nat
  | .taskRef k => [k]
  | .str _ => []
  | .int _ => []
  | .list vs => collectTasksList vs
  | .dict kvs => collectTasksPairs kvs

/-- Walk every element of a sequence. -/
def collectTasksList : List CtxVal → List Nat
  | [] => []
  | v :: vs => collectTasks v ++ collectTasksList vs

/-- Walk every value of a mapping. -/
def collectTasksPairs : List (String × CtxVal) → List Nat
  | [] => []
  | (_, v) :: vs => collectTasks v ++ collectTasksPairs vs

end

/-- Modelled from the spec, section 3: the Task record.  `dependsOn`,
`downstreams`, `parent` and `subtasks` hold arena keys of other tasks
(the spec's `depends_on`, `_downstreams`, `parent`, `_subtasks`). -/
structure Task where
  id : String
  objective : String
  status : TaskStatus
  result : Option PyVal
  resultType : ResultType
  dependsOn : List Nat
  downstreams : List Nat
  parent : Option Nat
  subtasks : List Nat
  agents : List Agent
deriving DecidableEq, Repr

/-- Modelled from the spec, sections 3 and 4.5: the live task arena together
with the process-wide context stacks - the open-task stack and the nested
flow/agent bindings (innermost scope last). -/
structure GraphState where
  tasks : List (Nat × Task)
  nextKey : Nat
  openTasks : List Nat
  openFlows : List (Option Agent)
deriving DecidableEq, Repr

/-- The initial, empty state. -/
def s0 : GraphState := { tasks := [], nextKey := 0, openTasks := [], openFlows := [] }

/-- Look a task up by its arena key (first match). -/
def lookupTask : List (Nat × Task) → Nat → Option Task
  | [], _ => none
  | p :: ps, k => if p.1 = k then some p.2 else lookupTask ps k

/-- The task stored under key `k`, if any. -/
def findTask (s : GraphState) (k : Nat) : Option Task := lookupTask s.tasks k

/-- Status of the task stored under `k`. -/
def statusOf (s : GraphState) (k : Nat) : Option TaskStatus := (findTask s k).map Task.status

/-- Result of the task stored under `k`. -/
def resultOf (s : GraphState) (k : Nat) : Option (Option PyVal) := (findTask s k).map Task.result

/-- Parent of the task stored under `k`. -/
def parentOf (s : GraphState) (k : Nat) : Option (Option Nat) := (findTask s k).map Task.parent

/-- Identifier of the task stored under `k`. -/
def idOf (s : GraphState) (k : Nat) : Option String := (findTask s k).map Task.id

/-- Objective of the task stored under `k`. -/
def objectiveOf (s : GraphState) (k : Nat) : Option String := (findTask s k).map Task.objective

/-- Modelled from the spec, section 4.1: hashing step of the deterministic
content fingerprint (a short digest; collisions at this length are an accepted
risk per the spec). -/
def hashChar (h : Nat) (c : Char) : Nat := (h * 31 + c.toNat) % 4294967296

/-- Fold the fingerprint hash over the characters of a string. -/
def fingerprintNat (s : String) : Nat := s.data.foldl hashChar 0

/-- One lowercase hexadecimal digit. -/
def hexDigit (n : Nat) : Char := if n < 10 then Char.ofNat (48 + n) else Char.ofNat (87 + n)

/-- Render a natural number as eight hexadecimal characters. -/
def toHex8 (n : Nat) : String :=
  String.mk ((List.range 8).map (fun i => hexDigit (n / 16 ^ (7 - i) % 16)))

/-- Modelled from the spec, section 4.1: `fingerprint(objective) -> id`, a
pure deterministic 8-hex-character digest of the task's identity-relevant
content (its objective text). -/
def fingerprint (objective : String) : String := toHex8 (fingerprintNat objective)

/-- Modelled from the spec: the classified errors surfaced by construction and
the `mark_*` transitions (spec section 7). -/
inductive TaskError where
  | missingObjective
  | unknownDependency
  | unknownParent
  | taskNotFound (k : Nat)
  | cannotBeMarkedSuccessful (objective : String)
  | resultValidation (msg : String)
deriving DecidableEq, Repr

/-- Human-readable message of each error; the upstream-completeness violation
names "cannot be marked successful" as the spec and tests require. -/
def TaskError.message : TaskError → String
  | .missingObjective => "task objective is required"
  | .unknownDependency => "dependency is not a known task"
  | .unknownParent => "parent is not a known task"
  | .taskNotFound _ => "task not found"
  | .cannotBeMarkedSuccessful o =>
      ("Task " ++ o ++ " ") ++
        ("cannot be marked successful" ++
          " until all of its upstream dependencies and subtasks are completed")
  | .resultValidation m => m

/-- `pat` occurs as a contiguous substring of `s`. -/
def strContains (s pat : String) : Prop := ∃ pre suf, s = pre ++ (pat ++ suf)

/-- Rewire one arena entry for a newly constructed task `k`: every upstream
dependency gains `k` among its `_downstreams`, and the resolved parent gains
`k` among its `_subtasks`. -/
def wireTask (k : Nat) (deps : List Nat) (parent : Option Nat) (j : Nat) (t : Task) : Task :=
  { t with
    downstreams := if j ∈ deps then k :: t.downstreams else t.downstreams,
    subtasks := if parent = some j then k :: t.subtasks else t.subtasks }

/-- Apply `wireTask` to a keyed arena entry. -/
def wireOne (k : Nat) (deps : List Nat) (parent : Option Nat) (p : Nat × Task) : Nat × Task :=
  (p.1, wireTask k deps parent p.1 p.2)

/-- The freshly allocated task record: PENDING, no result, back-reference
sets empty. -/
def mkTask (objective : String) (allDeps : List Nat) (parent : Option Nat)
    (agents : List Agent) (rt : ResultType) : Task :=
  { id := fingerprint objective, objective := objective, status := .pending,
    result := none, resultType := rt, dependsOn := allDeps,
    downstreams := [], parent := parent, subtasks := [], agents := agents }

/-- Allocate the new task record and perform the bidirectional graph wiring of
spec section 4.4. -/
def createTaskCore (s : GraphState) (objective : String) (allDeps : List Nat)
    (parent : Option Nat) (agents : List Agent) (rt : ResultType) : GraphState × Nat :=
  let k := s.nextKey
  ({ s with
      tasks := (k, mkTask objective allDeps parent agents rt) ::
        s.tasks.map (wireOne k allDeps parent),
      nextKey := k + 1 },
    k)

/-- Every key in `ds` refers to a live task. -/
def depsKnown (s : GraphState) (ds : List Nat) : Bool :=
  ds.all (fun d => (lookupTask s.tasks d).isSome)

/-- The resolved parent, if any, refers to a live task. -/
def parentKnown (s : GraphState) : Option Nat → Bool
  | none => true
  | some p => (lookupTask s.tasks p).isSome

/-- The parent in effect at construction time: the explicit argument, else the
task on top of the open-task stack at that moment (spec section 4.5). -/
def resolveParent (s : GraphState) : Option Nat → Option Nat
  | some p => some p
  | none => s.openTasks.getLast?

/-- Modelled from the spec, sections 3, 4.4 and 4.5: task construction.
Fails if the objective is empty.  The parent is the explicit `parent`
argument, else the task currently on top of the open-task stack at the moment
of construction (or none).  Dependencies are the explicit `depends_on`
argument together with every task found by recursively walking `context`;
each is wired bidirectionally.  Construction never produces a partially-wired
node: on any error the state is unchanged. -/
def createTask (s : GraphState) (objective : String) (deps : List Nat) (context : CtxVal)
    (parent? : Option Nat) (agents : List Agent) (rt : ResultType) :
    Except TaskError (GraphState × Nat) :=
  if objective = "" then .error .missingObjective
  else if depsKnown s (deps ++ collectTasks context) then
    if parentKnown s (resolveParent s parent?) then
      .ok (createTaskCore s objective (deps ++ collectTasks context)
        (resolveParent s parent?) agents rt)
    else .error .unknownParent
  else .error .unknownDependency

/-- Replace the task stored under `k` (status/result transitions only; the
graph links are never rewritten after construction). -/
def updateTask (s : GraphState) (k : Nat) (t : Task) : GraphState :=
  { s with tasks := s.tasks.map (fun p => if p.1 = k then (p.1, t) else p) }

/-- Is the dependency under key `d` SUCCESSFUL? -/
def depSuccessful (s : GraphState) (d : Nat) : Bool :=
  match findTask s d with
  | some td => td.status = .successful
  | none => false

/-- Is the subtask under key `c` in a COMPLETE state? -/
def subComplete (s : GraphState) (c : Nat) : Bool :=
  match findTask s c with
  | some tc => tc.status ∈ COMPLETE_STATUSES
  | none => false

/-- Modelled from the spec, section 3 invariants: a task may be marked
SUCCESSFUL only if every dependency is SUCCESSFUL and every subtask is
COMPLETE. -/
def upstreamOk (s : GraphState) (t : Task) : Bool :=
  t.dependsOn.all (fun d => depSuccessful s d) && t.subtasks.all (fun c => subComplete s c)

/-- Modelled from the spec, section 4.3, with the option-sequence case
following the repository's tests (`test_tuple_of_ints_result` and
`test_tuple_of_ints_validates`): validating a raw result value against the
declared `result_type`.  An option sequence accepts exactly the values that
are members of the sequence. -/
def validateResult : ResultType → PyVal → Except String PyVal
  | .unset, v => .ok v
  | .intType, .int n => .ok (.int n)
  | .intType, _ => .error "result is not an integer"
  | .strType, .str s => .ok (.str s)
  | .strType, _ => .error "result is not a string"
  | .options opts, v =>
      if v ∈ opts then .ok v else .error "result is not one of the allowed options"

/-- Modelled from the spec, section 4.2: `mark_successful(result)` first
validates upstream completeness (failing with the "cannot be marked
successful" validation error), then validates the raw result against
`result_type`, and only then sets status SUCCESSFUL and stores the validated
result. -/
def markSuccessful (s : GraphState) (k : Nat) (raw : PyVal) : Except TaskError GraphState :=
  match findTask s k with
  | none => .error (.taskNotFound k)
  | some t =>
    if upstreamOk s t then
      match validateResult t.resultType raw with
      | .ok v => .ok (updateTask s k { t with status := .successful, result := some v })
      | .error m => .error (.resultValidation m)
    else .error (.cannotBeMarkedSuccessful t.objective)

/-- Modelled from the spec, section 4.2: `mark_failed(reason)` transitions to
FAILED unconditionally and stores the reason string as the result. -/
def markFailed (s : GraphState) (k : Nat) (reason : String) : GraphState :=
  match findTask s k with
  | none => s
  | some t => updateTask s k { t with status := .failed, result := some (.str reason) }

/-- Modelled from the spec, section 4.2: `mark_skipped()` transitions to
SKIPPED unconditionally, with no result. -/
def markSkipped (s : GraphState) (k : Nat) : GraphState :=
  match findTask s k with
  | none => s
  | some t => updateTask s k { t with status := .skipped, result := none }

/-- Modelled from the spec, section 4.2: `mark_running()`. -/
def markRunning (s : GraphState) (k : Nat) : GraphState :=
  match findTask s k with
  | none => s
  | some t => updateTask s k { t with status := .running }

/-- Total-state view of `markSuccessful`: a failing call leaves the state
untouched (spec section 7: no partial mutation). -/
def markSuccessfulStep (s : GraphState) (k : Nat) (raw : PyVal) : GraphState :=
  match markSuccessful s k raw with
  | .ok s' => s'
  | .error _ => s

/-- Modelled from the spec, section 4.2: `is_ready()` is true iff the task's
status is in the INCOMPLETE set and every dependency is SUCCESSFUL. -/
def is_ready (s : GraphState) (k : Nat) : Bool :=
  match findTask s k with
  | none => false
  | some t =>
      decide (t.status ∈ INCOMPLETE_STATUSES) && t.dependsOn.all (fun d => depSuccessful s d)

/-- Push a task onto the open-task stack (scope entry, spec section 4.5). -/
def enterTask (s : GraphState) (k : Nat) : GraphState :=
  { s with openTasks := s.openTasks ++ [k] }

/-- Pop the innermost open task (scope exit, spec section 4.5). -/
def exitTopTask (s : GraphState) : GraphState :=
  { s with openTasks := s.openTasks.dropLast }

/-- Modelled from the spec, section 4.5: run a body inside a task's scope with
guaranteed release - the scope is popped on every exit path, also when the
body reports an error (the Boolean flag). -/
def runScoped (s : GraphState) (k : Nat) (body : GraphState → GraphState × Bool) :
    GraphState × Bool :=
  let r := body (enterTask s k)
  (exitTopTask r.1, r.2)

/-- Enter a flow scope binding an (optional) agent (spec section 4.5). -/
def enterFlow (s : GraphState) (a : Option Agent) : GraphState :=
  { s with openFlows := s.openFlows ++ [a] }

/-- Exit the innermost flow scope. -/
def exitFlow (s : GraphState) : GraphState :=
  { s with openFlows := s.openFlows.dropLast }

/-- The agent bound by the innermost enclosing flow scope, if any. -/
def flowAgent (s : GraphState) : Option Agent :=
  s.openFlows.reverse.findSome? (fun a => a)

/-- Modelled from the spec, section 4.6: walk the parent chain, nearest first,
for the first ancestor with a non-empty agents list.  The fuel bounds the
walk by the arena size. -/
def ancestorAgents (s : GraphState) : Nat → Option Nat → Option (List Agent)
  | 0, _ => none
  | _, none => none
  | fuel + 1, some p =>
    match findTask s p with
    | none => none
    | some tp => if tp.agents.isEmpty then ancestorAgents s fuel tp.parent else some tp.agents

/-- Modelled from the spec, section 4.6: `get_agents()` resolves, in strict
precedence order, the first non-empty source: the task's own agents, the
nearest ancestor's agents, the innermost enclosing flow's agent (a live
lookup against the current state), else the process-wide default agent. -/
def get_agents (s : GraphState) (k : Nat) : List Agent :=
  match findTask s k with
  | none => []
  | some t =>
    if t.agents.isEmpty then
      match ancestorAgents s s.tasks.length t.parent with
      | some l => l
      | none =>
        match flowAgent s with
        | some a => [a]
        | none => [defaultAgent]
    else t.agents

/-- Modelled from the spec, section 4.3: the success tool produced for a task.
When `result_type` is an ordered option sequence the tool's raw input is the
integer index of the chosen option (a non-integer or out-of-range index fails
validation); otherwise the payload is handed to `mark_successful` directly. -/
def successToolRun (s : GraphState) (k : Nat) (input : PyVal) : Except TaskError GraphState :=
  match findTask s k with
  | none => .error (.taskNotFound k)
  | some t =>
    match t.resultType with
    | .options opts =>
      match input with
      | .int i =>
        if h : 0 ≤ i ∧ i.toNat < opts.length then
          markSuccessful s k (opts.get ⟨i.toNat, h.2⟩)
        else .error (.resultValidation "invalid option index")
      | _ => .error (.resultValidation "the result must be the integer index of an option")
    | _ => markSuccessful s k input

/-- Modelled from the spec, section 4.3: the failure tool invokes
`mark_failed` with the supplied reason. -/
def failureToolRun (s : GraphState) (k : Nat) (reason : String) : GraphState :=
  markFailed s k reason

/-- Total-state view of construction: on error the state is unchanged. -/
def createStep (s : GraphState) (objective : String) (deps : List Nat) (context : CtxVal)
    (parent? : Option Nat) (agents : List Agent) (rt : ResultType) : GraphState :=
  match createTask s objective deps context parent? agents rt with
  | .ok r => r.1
  | .error _ => s

/-- Construct a task and enter its scope (the `with Task(...) as t:` idiom). -/
def openStep (s : GraphState) (objective : String) (deps : List Nat) (context : CtxVal)
    (parent? : Option Nat) (agents : List Agent) (rt : ResultType) : GraphState :=
  match createTask s objective deps context parent? agents rt with
  | .ok r => enterTask r.1 r.2
  | .error _ => s

/-- A construction-and-scoping command, the observable surface through which
a client program builds a task graph. -/
inductive Cmd where
  | create (objective : String) (deps : List Nat) (context : CtxVal)
      (parent? : Option Nat) (agents : List Agent) (rt : ResultType)
  | openTask (objective : String) (deps : List Nat) (context : CtxVal)
      (parent? : Option Nat) (agents : List Agent) (rt : ResultType)
  | closeTask
  | flowEnter (a : Option Agent)
  | flowExit

/-- Run one command. -/
def applyCmd (s : GraphState) : Cmd → GraphState
  | .create o d c p a rt => createStep s o d c p a rt
  | .openTask o d c p a rt => openStep s o d c p a rt
  | .closeTask => exitTopTask s
  | .flowEnter a => enterFlow s a
  | .flowExit => exitFlow s

/-- Run a sequence of commands from a starting state. -/
def applyCmds (s : GraphState) : List Cmd → GraphState
  | [] => s
  | c :: cs => applyCmds (applyCmd s c) cs

/-- The structural invariants of the live graph (spec section 3): every
stored key is below the allocation counter, every cross-reference (dependency,
downstream, parent, subtask, open-task stack entry) names a live task, and
`depends_on`/`_downstreams` as well as `parent`/`_subtasks` are mutual
inverses. -/
structure Inv (s : GraphState) : Prop where
  bound : ∀ j, (lookupTask s.tasks j).isSome = true → j < s.nextKey
  closedDeps : ∀ j t, lookupTask s.tasks j = some t →
    ∀ d ∈ t.dependsOn, (lookupTask s.tasks d).isSome = true
  closedDown : ∀ j t, lookupTask s.tasks j = some t →
    ∀ d ∈ t.downstreams, (lookupTask s.tasks d).isSome = true
  closedSub : ∀ j t, lookupTask s.tasks j = some t →
    ∀ c ∈ t.subtasks, (lookupTask s.tasks c).isSome = true
  closedPar : ∀ j t p, lookupTask s.tasks j = some t → t.parent = some p →
    (lookupTask s.tasks p).isSome = true
  closedOpen : ∀ j ∈ s.openTasks, (lookupTask s.tasks j).isSome = true
  edge : ∀ a b ta tb, lookupTask s.tasks a = some ta → lookupTask s.tasks b = some tb →
    (a ∈ tb.dependsOn ↔ b ∈ ta.downstreams)
  par : ∀ a b ta tb, lookupTask s.tasks a = some ta → lookupTask s.tasks b = some tb →
    (tb.parent = some a ↔ b ∈ ta.subtasks)

/-- The state holding task 0 ("t1") and task 1 ("t2" depending on task 0). -/
def c1s2 : GraphState :=
  createStep (createStep s0 "t1" [] ctx0 none [] .unset) "t2" [0] ctx0 none [] .unset

/-- The record stored for task 0 in `c1s2`. -/
def c1t1 : Task :=
  { id := fingerprint "t1", objective := "t1", status := .pending, result := none,
    resultType := .unset, dependsOn := [], downstreams := [1], parent := none,
    subtasks := [], agents := [] }

/-- The record stored for task 1 in `c1s2`. -/
def c1t2 : Task :=
  { id := fingerprint "t2", objective := "t2", status := .pending, result := none,
    resultType := .unset, dependsOn := [0], downstreams := [], parent := none,
    subtasks := [], agents := [] }

/-- `c1s2` after task 0 is marked successful. -/
def c1s2m : GraphState := markSuccessfulStep c1s2 0 .pyNone

/-- A one-task state: task 0 with objective "Test Objective" and integer
result type, as in the test `test_task_mark_successful_and_mark_failed`. -/
def c3s : GraphState := createStep s0 "Test Objective" [] ctx0 none [] .intType

/-- `c3s` after task 0 has been marked successful with result 5. -/
def c3sSucc : GraphState := markSuccessfulStep c3s 0 (.int 5)

/-- A one-task state whose result type is the ordered option sequence
`(4, 5, 6)`, as in the test `test_tuple_of_ints_result`. -/
def c4sInts : GraphState :=
  createStep s0 "choose 5" [] ctx0 none [] (.options [.int 4, .int 5, .int 6])

/-- The option sequence of the test `test_success_tool_with_list_of_options`. -/
def c4opts : List PyVal := [.str "bad", .str "good", .str "medium"]

/-- A one-task state whose result type is the option sequence
`["bad", "good", "medium"]`. -/
def c4sOpt : GraphState := createStep s0 "choose good" [] ctx0 none [] (.options c4opts)

/-- The record stored for task 0 of `c4sOpt`. -/
def c4tOpt : Task :=
  { id := fingerprint "choose good", objective := "choose good", status := .pending,
    result := none, resultType := .options c4opts, dependsOn := [], downstreams := [],
    parent := none, subtasks := [], agents := [] }

/-- The nested context of the test `test_task_context_complex_dependencies`:
`dict(a=[task1], b=dict(c=[task2]))`. -/
def c5ctx : CtxVal :=
  .dict [("a", .list [.taskRef 0]), ("b", .dict [("c", .list [.taskRef 1])])]

/-- Construction sequence: two plain tasks, then a third whose context nests
references to both. -/
def c5cmds : List Cmd :=
  [.create "task1" [] ctx0 none [] .unset,
   .create "task2" [] ctx0 none [] .unset,
   .create "task3" [] c5ctx none [] .unset]

/-- The state after running `c5cmds`. -/
def c5s : GraphState := applyCmds s0 c5cmds

/-- The record stored for task 0 in `c5s`. -/
def c5t1 : Task :=
  { id := fingerprint "task1", objective := "task1", status := .pending, result := none,
    resultType := .unset, dependsOn := [], downstreams := [2], parent := none,
    subtasks := [], agents := [] }

/-- The record stored for task 1 in `c5s`. -/
def c5t2 : Task :=
  { id := fingerprint "task2", objective := "task2", status := .pending, result := none,
    resultType := .unset, dependsOn := [], downstreams := [2], parent := none,
    subtasks := [], agents := [] }

/-- The record stored for task 2 in `c5s`. -/
def c5t3 : Task :=
  { id := fingerprint "task3", objective := "task3", status := .pending, result := none,
    resultType := .unset, dependsOn := [0, 1], downstreams := [], parent := none,
    subtasks := [], agents := [] }

/-- The state after opening the scopes of "task1" and "task2" (the nesting of
`test_task_parent_context`): the open-task stack is `[0, 1]`. -/
def c6s : GraphState :=
  applyCmds s0 [.openTask "task1" [] ctx0 none [] .unset,
    .openTask "task2" [] ctx0 none [] .unset]

/-- The agent assigned to the parent task in the precedence scenario. -/
def agentA : Agent := { name := "Test Agent 2" }

/-- The agent bound by the flow in the precedence scenario. -/
def agentB : Agent := { name := "Test Agent 1" }

/-- The scenario of `test_task_loads_agent_from_parent_before_flow`: a flow
bound to `agentB`, an open parent task with explicit `[agentA]`, and a child
task with no explicit agents. -/
def c7s : GraphState :=
  applyCmds s0 [.flowEnter (some agentB), .openTask "p" [] ctx0 none [agentA] .unset,
    .create "c" [] ctx0 none [] .unset]

/-- The record stored for the parent task (key 0) in `c7s`. -/
def c7tp : Task :=
  { id := fingerprint "p", objective := "p", status := .pending, result := none,
    resultType := .unset, dependsOn := [], downstreams := [], parent := none,
    subtasks := [1], agents := [agentA] }

/-- The record stored for the child task (key 1) in `c7s`. -/
def c7tc : Task :=
  { id := fingerprint "c", objective := "c", status := .pending, result := none,
    resultType := .unset, dependsOn := [], downstreams := [], parent := some 0,
    subtasks := [], agents := [] }

/-- The scenario of `test_task_loads_agent_from_flow`: a task constructed
inside a flow bound to `agentB`, with no parent and no explicit agents. -/
def c7sf : GraphState :=
  applyCmds s0 [.flowEnter (some agentB), .create "t" [] ctx0 none [] .unset]

/-- The record stored for task 0 in `c7sf`. -/
def c7tf : Task :=
  { id := fingerprint "t", objective := "t", status := .pending, result := none,
    resultType := .unset, dependsOn := [], downstreams := [], parent := none,
    subtasks := [], agents := [] }

/-- Two tasks with the colliding objectives "Aa" and "BB". -/
def c8s : GraphState :=
  applyCmds s0 [.create "Aa" [] ctx0 none [] .unset, .create "BB" [] ctx0 none [] .unset]

/-- A task with the tested objective "Test Objective". -/
def c8w1 : GraphState := createStep s0 "Test Objective" [] ctx0 none [] .unset

/-- A second, independently constructed task with the same objective. -/
def c8w2 : GraphState := createStep c8w1 "Test Objective" [] ctx0 none [] .unset

/-- Modelled from the spec, section 4.7: the observable state of one bounded
run (the orchestration code is not among the provided sources).  `trace`
records every model call individually, in order; `remaining` is the number of
further calls the driven task needs before it finishes. -/
structure RunSim where
  trace : List Nat
  remaining : Nat
deriving DecidableEq, Repr

/-- The driven task is complete exactly when no further calls are needed. -/
def RunSim.completed (st : RunSim) : Bool := st.remaining = 0

/-- One model call: individually recorded in the trace (never coalesced),
bringing the task one call closer to completion. -/
def doCall (st : RunSim) : RunSim :=
  { trace := st.trace ++ [st.trace.length], remaining := st.remaining - 1 }

/-- Modelled from the spec, section 4.7: one turn issues up to
`max_calls_per_turn` model calls, stopping early if the task completes. -/
def runTurn : Nat → RunSim → RunSim
  | 0, st => st
  | c + 1, st => if st.remaining = 0 then st else runTurn c (doCall st)

/-- Modelled from the spec, section 4.7: the loop runs up to `max_turns`
turns, terminating once the task is complete; hitting the limit is a soft
stop, not an error (the function is total and never fails). -/
def runLoop : Nat → Nat → RunSim → RunSim
  | 0, _, st => st
  | tn + 1, c, st => if st.remaining = 0 then st else runLoop tn c (runTurn c st)

/-- `run(max_turns, max_calls_per_turn)` on a task requiring `required` model
calls to finish. -/
def runTask (maxTurns maxCallsPerTurn required : Nat) : RunSim :=
  runLoop maxTurns maxCallsPerTurn { trace := [], remaining := required }

/-- Truthiness of an optional environment-variable value, as Python evaluates
the result of `os.getenv` in a boolean context: unset (None) and the empty
string are falsy, any other string is truthy. -/
def pyTruthy : Option String → Bool
  | none => false
  | some s => s ≠ ""

/-- The shape of the `env_file` entry of a pydantic-settings model
configuration: either the empty string or a tuple of paths. -/
inductive EnvFileSetting where
  | emptyString
  | paths (ps : List String)
deriving DecidableEq, Repr

/-- The `env_file` entry computed in `ControlFlowSettings.model_config`
(src/control_flow/settings.py lines 7-12): the empty string when
CONTROL_FLOW_TEST_MODE is truthy at import time, else the pair
`("~/.control_flow/.env", ".env")`. -/
def controlFlowEnvFile (testMode : Option String) : EnvFileSetting :=
  if pyTruthy testMode then .emptyString else .paths ["~/.control_flow/.env", ".env"]

/-- The env files pydantic-settings reads for a given `env_file`
configuration: an empty-string path loads no file at all. -/
def envFilesLoaded : EnvFileSetting → List String
  | .emptyString => []
  | .paths ps => ps

/-- The `Settings` model and its defaults
(src/control_flow/settings.py lines 19-21). -/
structure Settings where
  assistant_model : String := "gpt-4-1106-preview"
  max_agent_iterations : Int := 10

/-- `Settings()` as constructed at import time, with all defaults. -/
def defaultSettings : Settings := {}

theorem lookupTask_map_wire (l : List (Nat × Task)) (k : Nat) (deps : List Nat)
    (parent : Option Nat) (j : Nat) :
    lookupTask (l.map (wireOne k deps parent)) j =
      (lookupTask l j).map (wireTask k deps parent j) := by
  induction l with
  | nil => rfl
  | cons p ps ih =>
    simp only [List.map_cons, lookupTask, wireOne]
    by_cases h : p.1 = j
    · subst h
      simp
    · simp [h, ih]

theorem lookupTask_map_update (l : List (Nat × Task)) (k : Nat) (t : Task) (j : Nat) :
    lookupTask (l.map (fun p => if p.1 = k then (p.1, t) else p)) j =
      if j = k then (lookupTask l k).map (fun _ => t) else lookupTask l j := by
  induction l with
  | nil => simp [lookupTask]
  | cons p ps ih =>
    simp only [List.map_cons, lookupTask]
    by_cases hpk : p.1 = k
    · by_cases hjk : j = k
      · subst hjk
        simp [hpk, lookupTask]
      · have hpj : ¬ p.1 = j := by
          intro hc
          exact hjk (hc ▸ hpk ▸ rfl)
        have hkj : ¬ k = j := fun hc => hjk hc.symm
        simp [hpk, hpj, lookupTask, ih, hjk, hkj]
    · by_cases hpj : p.1 = j
      · subst hpj
        simp [lookupTask, hpk]
      · simp [hpk, hpj, lookupTask, ih]

theorem findTask_updateTask (s : GraphState) (k : Nat) (t : Task) (j : Nat) :
    findTask (updateTask s k t) j =
      if j = k then (findTask s k).map (fun _ => t) else findTask s j := by
  simp [findTask, updateTask, lookupTask_map_update]

theorem lookupTask_core (s : GraphState) (o : String) (allDeps : List Nat)
    (parent : Option Nat) (ags : List Agent) (rt : ResultType) (j : Nat) :
    lookupTask ((createTaskCore s o allDeps parent ags rt).1).tasks j =
      if s.nextKey = j then some (mkTask o allDeps parent ags rt)
      else (lookupTask s.tasks j).map (wireTask s.nextKey allDeps parent j) := by
  by_cases h : s.nextKey = j <;>
    simp [createTaskCore, lookupTask, h, lookupTask_map_wire]

theorem createTaskCore_nextKey (s : GraphState) (o : String) (allDeps : List Nat)
    (parent : Option Nat) (ags : List Agent) (rt : ResultType) :
    (createTaskCore s o allDeps parent ags rt).1.nextKey = s.nextKey + 1 := rfl

theorem createTaskCore_openTasks (s : GraphState) (o : String) (allDeps : List Nat)
    (parent : Option Nat) (ags : List Agent) (rt : ResultType) :
    (createTaskCore s o allDeps parent ags rt).1.openTasks = s.openTasks := rfl

theorem createTask_ok_shape (s : GraphState) (o : String) (deps : List Nat) (c : CtxVal)
    (p? : Option Nat) (ags : List Agent) (rt : ResultType) (s' : GraphState) (k : Nat)
    (hc : createTask s o deps c p? ags rt = .ok (s', k)) :
    k = s.nextKey ∧
    s' = (createTaskCore s o (deps ++ collectTasks c) (resolveParent s p?) ags rt).1 ∧
    depsKnown s (deps ++ collectTasks c) = true ∧
    parentKnown s (resolveParent s p?) = true := by
  by_cases ho : o = ""
  · rw [createTask, if_pos ho] at hc
    exact Except.noConfusion hc
  · rw [createTask, if_neg ho] at hc
    by_cases hdeps : depsKnown s (deps ++ collectTasks c) = true
    · rw [if_pos hdeps] at hc
      by_cases hpk : parentKnown s (resolveParent s p?) = true
      · rw [if_pos hpk] at hc
        injection hc with h1
        refine ⟨?_, ?_, hdeps, hpk⟩
        · exact (congrArg Prod.snd h1).symm
        · exact (congrArg Prod.fst h1).symm
      · rw [if_neg hpk] at hc
        exact Except.noConfusion hc
    · rw [if_neg hdeps] at hc
      exact Except.noConfusion hc

theorem createTaskCore_preserves_Inv
    (s : GraphState) (o : String) (allDeps : List Nat) (parent : Option Nat)
    (ags : List Agent) (rt : ResultType) (hs : Inv s)
    (hall : ∀ d ∈ allDeps, (lookupTask s.tasks d).isSome = true)
    (hpar : ∀ p, parent = some p → (lookupTask s.tasks p).isSome = true) :
    Inv (createTaskCore s o allDeps parent ags rt).1 := by
  have hknone : lookupTask s.tasks s.nextKey = none := by
    cases hl : lookupTask s.tasks s.nextKey with
    | none => rfl
    | some t => exact absurd (hs.bound s.nextKey (by simp [hl])) (lt_irrefl s.nextKey)
  have hlift : ∀ d, (lookupTask s.tasks d).isSome = true →
      (lookupTask ((createTaskCore s o allDeps parent ags rt).1).tasks d).isSome = true := by
    intro d hd
    rw [lookupTask_core]
    by_cases hkd : s.nextKey = d
    · rw [if_pos hkd]
      rfl
    · rw [if_neg hkd, Option.isSome_map']
      exact hd
  have hnew : lookupTask ((createTaskCore s o allDeps parent ags rt).1).tasks s.nextKey =
      some (mkTask o allDeps parent ags rt) := by
    rw [lookupTask_core, if_pos rfl]
  have hold : ∀ j t, ¬ (s.nextKey = j) →
      lookupTask ((createTaskCore s o allDeps parent ags rt).1).tasks j = some t →
      ∃ t0, lookupTask s.tasks j = some t0 ∧ t = wireTask s.nextKey allDeps parent j t0 := by
    intro j t hkj hjt
    rw [lookupTask_core, if_neg hkj] at hjt
    rcases Option.map_eq_some'.mp hjt with ⟨t0, h0, heq⟩
    exact ⟨t0, h0, heq.symm⟩
  have hnotdep : ¬ s.nextKey ∈ allDeps := by
    intro hmem
    have := hall _ hmem
    rw [hknone] at this
    cases this
  have hnotpar : ¬ parent = some s.nextKey := by
    intro hp
    have := hpar _ hp
    rw [hknone] at this
    cases this
  constructor
  · -- bound
    intro j hj
    rw [createTaskCore_nextKey]
    rw [lookupTask_core] at hj
    by_cases hkj : s.nextKey = j
    · omega
    · rw [if_neg hkj] at hj
      rw [Option.isSome_map'] at hj
      exact Nat.lt_succ_of_lt (hs.bound j hj)
  · -- closedDeps
    intro j t hjt d hd
    by_cases hkj : s.nextKey = j
    · subst hkj
      rw [hnew] at hjt
      injection hjt with ht
      subst ht
      exact hlift d (hall d hd)
    · obtain ⟨t0, h0, rfl⟩ := hold j t hkj hjt
      exact hlift d (hs.closedDeps j t0 h0 d hd)
  · -- closedDown
    intro j t hjt d hd
    by_cases hkj : s.nextKey = j
    · subst hkj
      rw [hnew] at hjt
      injection hjt with ht
      subst ht
      simp [mkTask] at hd
    · obtain ⟨t0, h0, rfl⟩ := hold j t hkj hjt
      simp only [wireTask] at hd
      by_cases hjd : j ∈ allDeps
      · rw [if_pos hjd] at hd
        rcases List.mem_cons.mp hd with rfl | hd'
        · simp [hnew]
        · exact hlift d (hs.closedDown j t0 h0 d hd')
      · rw [if_neg hjd] at hd
        exact hlift d (hs.closedDown j t0 h0 d hd)
  · -- closedSub
    intro j t hjt d hd
    by_cases hkj : s.nextKey = j
    · subst hkj
      rw [hnew] at hjt
      injection hjt with ht
      subst ht
      simp [mkTask] at hd
    · obtain ⟨t0, h0, rfl⟩ := hold j t hkj hjt
      simp only [wireTask] at hd
      by_cases hjp : parent = some j
      · rw [if_pos hjp] at hd
        rcases List.mem_cons.mp hd with rfl | hd'
        · simp [hnew]
        · exact hlift d (hs.closedSub j t0 h0 d hd')
      · rw [if_neg hjp] at hd
        exact hlift d (hs.closedSub j t0 h0 d hd)
  · -- closedPar
    intro j t p hjt hp
    by_cases hkj : s.nextKey = j
    · subst hkj
      rw [hnew] at hjt
      injection hjt with ht
      subst ht
      exact hlift p (hpar p hp)
    · obtain ⟨t0, h0, rfl⟩ := hold j t hkj hjt
      exact hlift p (hs.closedPar j t0 p h0 hp)
  · -- closedOpen
    intro j hj
    rw [createTaskCore_openTasks] at hj
    exact hlift j (hs.closedOpen j hj)
  · -- edge
    intro a b ta tb ha hb
    by_cases hka : s.nextKey = a <;> by_cases hkb : s.nextKey = b
    · subst hka
      rw [← hkb] at hb ⊢
      rw [hnew] at ha hb
      injection ha with hta
      injection hb with htb
      subst hta
      subst htb
      constructor
      · intro hmem
        exact absurd hmem hnotdep
      · intro hmem
        simp [mkTask] at hmem
    · subst hka
      rw [hnew] at ha
      injection ha with hta
      subst hta
      obtain ⟨tb0, hb0, rfl⟩ := hold b tb hkb hb
      constructor
      · intro hmem
        simp only [wireTask] at hmem
        have := hs.closedDeps b tb0 hb0 _ hmem
        rw [hknone] at this
        cases this
      · intro hmem
        simp [mkTask] at hmem
    · subst hkb
      rw [hnew] at hb
      injection hb with htb
      subst htb
      obtain ⟨ta0, ha0, rfl⟩ := hold a ta hka ha
      simp only [mkTask, wireTask]
      constructor
      · intro hmem
        rw [if_pos hmem]
        exact List.mem_cons_self _ _
      · intro hmem
        by_cases hma : a ∈ allDeps
        · exact hma
        · rw [if_neg hma] at hmem
          have := hs.closedDown a ta0 ha0 _ hmem
          rw [hknone] at this
          cases this
    · obtain ⟨ta0, ha0, rfl⟩ := hold a ta hka ha
      obtain ⟨tb0, hb0, rfl⟩ := hold b tb hkb hb
      have hbk : ¬ b = s.nextKey := fun hcc => hkb hcc.symm
      by_cases hma : a ∈ allDeps
      · simpa [wireTask, hma, hbk] using hs.edge a b ta0 tb0 ha0 hb0
      · simpa [wireTask, hma] using hs.edge a b ta0 tb0 ha0 hb0
  · -- par
    intro a b ta tb ha hb
    by_cases hka : s.nextKey = a <;> by_cases hkb : s.nextKey = b
    · subst hka
      rw [← hkb] at hb ⊢
      rw [hnew] at ha hb
      injection ha with hta
      injection hb with htb
      subst hta
      subst htb
      constructor
      · intro hmem
        exact absurd hmem hnotpar
      · intro hmem
        simp [mkTask] at hmem
    · subst hka
      rw [hnew] at ha
      injection ha with hta
      subst hta
      obtain ⟨tb0, hb0, rfl⟩ := hold b tb hkb hb
      constructor
      · intro hmem
        simp only [wireTask] at hmem
        have := hs.closedPar b tb0 _ hb0 hmem
        rw [hknone] at this
        cases this
      · intro hmem
        simp [mkTask] at hmem
    · subst hkb
      rw [hnew] at hb
      injection hb with htb
      subst htb
      obtain ⟨ta0, ha0, rfl⟩ := hold a ta hka ha
      simp only [mkTask, wireTask]
      constructor
      · intro hmem
        rw [if_pos hmem]
        exact List.mem_cons_self _ _
      · intro hmem
        by_cases hpa : parent = some a
        · exact hpa
        · rw [if_neg hpa] at hmem
          have := hs.closedSub a ta0 ha0 _ hmem
          rw [hknone] at this
          cases this
    · obtain ⟨ta0, ha0, rfl⟩ := hold a ta hka ha
      obtain ⟨tb0, hb0, rfl⟩ := hold b tb hkb hb
      have hbk : ¬ b = s.nextKey := fun hcc => hkb hcc.symm
      by_cases hpa : parent = some a
      · simpa [wireTask, hpa, hbk] using hs.par a b ta0 tb0 ha0 hb0
      · simpa [wireTask, hpa] using hs.par a b ta0 tb0 ha0 hb0

theorem Inv_s0 : Inv s0 := by
  constructor <;> intros <;> simp_all [s0, lookupTask]

theorem createTask_ok_Inv (s : GraphState) (o : String) (deps : List Nat) (c : CtxVal)
    (p? : Option Nat) (ags : List Agent) (rt : ResultType) (r : GraphState × Nat)
    (hs : Inv s) (hc : createTask s o deps c p? ags rt = .ok r) : Inv r.1 := by
  obtain ⟨hk, hs', hdeps, hpk⟩ :=
    createTask_ok_shape s o deps c p? ags rt r.1 r.2 (by rw [hc])
  rw [hs']
  apply createTaskCore_preserves_Inv _ _ _ _ _ _ hs
  · intro d hd
    simp only [depsKnown, List.all_eq_true] at hdeps
    exact hdeps d hd
  · intro p hp
    rw [hp] at hpk
    simpa [parentKnown] using hpk

theorem createStep_preserves_Inv (s : GraphState) (o : String) (deps : List Nat) (c : CtxVal)
    (p? : Option Nat) (ags : List Agent) (rt : ResultType) (hs : Inv s) :
    Inv (createStep s o deps c p? ags rt) := by
  unfold createStep
  cases hc : createTask s o deps c p? ags rt with
  | error e => exact hs
  | ok r => exact createTask_ok_Inv s o deps c p? ags rt r hs hc

theorem enterTask_preserves_Inv (s : GraphState) (k : Nat) (hs : Inv s)
    (hk : (lookupTask s.tasks k).isSome = true) : Inv (enterTask s k) := by
  refine ⟨hs.bound, hs.closedDeps, hs.closedDown, hs.closedSub, hs.closedPar, ?_,
    hs.edge, hs.par⟩
  intro j hj
  have hj2 : j ∈ s.openTasks ∨ j = k := by simpa [enterTask] using hj
  rcases hj2 with hj' | hj'
  · exact hs.closedOpen j hj'
  · rw [hj']
    exact hk

theorem exitTopTask_preserves_Inv (s : GraphState) (hs : Inv s) : Inv (exitTopTask s) := by
  refine ⟨hs.bound, hs.closedDeps, hs.closedDown, hs.closedSub, hs.closedPar, ?_,
    hs.edge, hs.par⟩
  intro j hj
  exact hs.closedOpen j (List.dropLast_subset _ (by simpa [exitTopTask] using hj))

theorem enterFlow_preserves_Inv (s : GraphState) (a : Option Agent) (hs : Inv s) :
    Inv (enterFlow s a) :=
  ⟨hs.bound, hs.closedDeps, hs.closedDown, hs.closedSub, hs.closedPar, hs.closedOpen,
    hs.edge, hs.par⟩

theorem exitFlow_preserves_Inv (s : GraphState) (hs : Inv s) : Inv (exitFlow s) :=
  ⟨hs.bound, hs.closedDeps, hs.closedDown, hs.closedSub, hs.closedPar, hs.closedOpen,
    hs.edge, hs.par⟩

theorem openStep_preserves_Inv (s : GraphState) (o : String) (deps : List Nat) (c : CtxVal)
    (p? : Option Nat) (ags : List Agent) (rt : ResultType) (hs : Inv s) :
    Inv (openStep s o deps c p? ags rt) := by
  unfold openStep
  cases hc : createTask s o deps c p? ags rt with
  | error e => exact hs
  | ok r =>
    obtain ⟨hk, hs', hdeps, hpk⟩ :=
      createTask_ok_shape s o deps c p? ags rt r.1 r.2 (by rw [hc])
    have hinv : Inv r.1 := createTask_ok_Inv s o deps c p? ags rt r hs hc
    apply enterTask_preserves_Inv _ _ hinv
    rw [hs', hk, lookupTask_core, if_pos rfl]
    rfl

theorem applyCmd_preserves_Inv (s : GraphState) (cmd : Cmd) (hs : Inv s) :
    Inv (applyCmd s cmd) := by
  cases cmd with
  | create o d c p a rt => exact createStep_preserves_Inv s o d c p a rt hs
  | openTask o d c p a rt => exact openStep_preserves_Inv s o d c p a rt hs
  | closeTask => exact exitTopTask_preserves_Inv s hs
  | flowEnter a => exact enterFlow_preserves_Inv s a hs
  | flowExit => exact exitFlow_preserves_Inv s hs

theorem applyCmds_preserves_Inv (cmds : List Cmd) :
    ∀ s : GraphState, Inv s → Inv (applyCmds s cmds) := by
  induction cmds with
  | nil => exact fun s hs => hs
  | cons c cs ih => exact fun s hs => ih _ (applyCmd_preserves_Inv s c hs)

/-- C5: after any sequence of task constructions (including scoped ones and
flow scopes) starting from the empty state, `depends_on`/`_downstreams` and
`parent`/`_subtasks` are mutual inverses: A is in B's dependencies iff B is in
A's downstreams, and B's parent is A iff B is among A's subtasks.  Moreover a
newly constructed task's dependency list is exactly the explicit `depends_on`
argument followed by every task found by recursively walking the `context`
argument through mapping values and sequence elements at arbitrary nesting
depth. -/
theorem C5_graph_mutual_inverses (cmds : List Cmd) :
    (∀ a b ta tb, findTask (applyCmds s0 cmds) a = some ta →
        findTask (applyCmds s0 cmds) b = some tb →
        ((a ∈ tb.dependsOn ↔ b ∈ ta.downstreams) ∧
          (tb.parent = some a ↔ b ∈ ta.subtasks)))
    ∧ (∀ (s s' : GraphState) (o : String) (deps : List Nat) (c : CtxVal) (p? : Option Nat)
        (ags : List Agent) (rt : ResultType) (k : Nat),
        createTask s o deps c p? ags rt = .ok (s', k) →
        (findTask s' k).map Task.dependsOn = some (deps ++ collectTasks c) ∧
        (findTask s' k).map Task.parent = some (resolveParent s p?)) := by
  constructor
  · intro a b ta tb ha hb
    have hinv := applyCmds_preserves_Inv cmds s0 Inv_s0
    exact ⟨hinv.edge a b ta tb ha hb, hinv.par a b ta tb ha hb⟩
  · intro s s' o deps c p? ags rt k hc
    obtain ⟨hk, hs', _, _⟩ := createTask_ok_shape s o deps c p? ags rt s' k hc
    subst hk
    rw [hs']
    rw [show findTask
        (createTaskCore s o (deps ++ collectTasks c) (resolveParent s p?) ags rt).1
        s.nextKey =
      some (mkTask o (deps ++ collectTasks c) (resolveParent s p?) ags rt) from by
        rw [findTask, lookupTask_core, if_pos rfl]]
    exact ⟨rfl, rfl⟩

/-- C5 witness: in the graph of `test_task_context_complex_dependencies`, the
two tasks nested inside task3's context are dependencies of task3 iff task3 is
among their downstreams, and task3's dependency list is exactly the two
context-collected tasks. -/
theorem C5_witness :
    ((0 ∈ c5t3.dependsOn ↔ 2 ∈ c5t1.downstreams) ∧
      (c5t3.parent = some 0 ↔ 2 ∈ c5t1.subtasks)) ∧
    ((1 ∈ c5t3.dependsOn ↔ 2 ∈ c5t2.downstreams) ∧
      (c5t3.parent = some 1 ↔ 2 ∈ c5t2.subtasks)) ∧
    (findTask c5s 2).map Task.dependsOn = some [0, 1] := by
  have h0 : findTask c5s 0 = some c5t1 := by decide
  have h1 : findTask c5s 1 = some c5t2 := by decide
  have h2 : findTask c5s 2 = some c5t3 := by decide
  refine ⟨?_, ?_, ?_⟩
  · exact (C5_graph_mutual_inverses c5cmds).1 0 2 c5t1 c5t3 h0 h2
  · exact (C5_graph_mutual_inverses c5cmds).1 1 2 c5t2 c5t3 h1 h2
  · exact ((C5_graph_mutual_inverses c5cmds).2 (applyCmds s0 (c5cmds.take 2)) c5s
      "task3" [] c5ctx none [] .unset 2 (by rfl)).1

theorem createStep_openTasks (s : GraphState) (o : String) (deps : List Nat) (c : CtxVal)
    (p? : Option Nat) (ags : List Agent) (rt : ResultType) :
    (createStep s o deps c p? ags rt).openTasks = s.openTasks := by
  unfold createStep
  cases hc : createTask s o deps c p? ags rt with
  | error e => rfl
  | ok r =>
    obtain ⟨_, hs', _, _⟩ := createTask_ok_shape s o deps c p? ags rt r.1 r.2 (by rw [hc])
    show r.1.openTasks = s.openTasks
    rw [hs']
    rfl

/-- C6: the open-task stack obeys scoped push/pop discipline: for any body run
inside a task's scope that leaves the stack as it found it, the stack after
exiting the scope equals the stack before entering it, even when the body
reports an error; and a task constructed with no explicit parent gets as
parent the task on top of the open-task stack at the moment of its
construction (none if the stack is empty), while an explicit parent argument
is taken as given. -/
theorem C6_scoped_stack (s : GraphState) (k : Nat) (body : GraphState → GraphState × Bool)
    (hbody : ∀ s1, ((body s1).1).openTasks = s1.openTasks) :
    ((runScoped s k body).1.openTasks = s.openTasks)
    ∧ (∀ (o : String) (deps : List Nat) (c : CtxVal) (ags : List Agent) (rt : ResultType)
        (s' : GraphState) (k' : Nat),
        createTask s o deps c none ags rt = .ok (s', k') →
        (findTask s' k').map Task.parent = some s.openTasks.getLast?)
    ∧ (∀ (o : String) (deps : List Nat) (c : CtxVal) (p : Nat) (ags : List Agent)
        (rt : ResultType) (s' : GraphState) (k' : Nat),
        createTask s o deps c (some p) ags rt = .ok (s', k') →
        (findTask s' k').map Task.parent = some (some p)) := by
  refine ⟨?_, ?_, ?_⟩
  · simp [runScoped, exitTopTask, hbody, enterTask, List.dropLast_concat]
  · intro o deps c ags rt s' k' hc
    obtain ⟨hk, hs', _, _⟩ := createTask_ok_shape s o deps c none ags rt s' k' hc
    subst hk
    rw [hs', findTask, lookupTask_core, if_pos rfl]
    rfl
  · intro o deps c p ags rt s' k' hc
    obtain ⟨hk, hs', _, _⟩ := createTask_ok_shape s o deps c (some p) ags rt s' k' hc
    subst hk
    rw [hs', findTask, lookupTask_core, if_pos rfl]
    rfl

/-- C6 witness: a scope around a task construction (flagged as erroring)
restores the stack of `c1s2`; under the two open scopes of `c6s` a new task's
parent is the innermost open task (key 1); with the stack empty the parent is
none; an explicit parent wins. -/
theorem C6_witness :
    (runScoped c1s2 0
        (fun s1 => (createStep s1 "inner" [] ctx0 none [] .unset, true))).1.openTasks
      = c1s2.openTasks ∧
    (findTask (createStep c6s "task3" [] ctx0 none [] .unset) 2).map Task.parent
      = some (some 1) ∧
    (findTask (createStep s0 "solo" [] ctx0 none [] .unset) 0).map Task.parent
      = some none ∧
    (findTask (createStep c1s2 "child" [] ctx0 (some 0) [] .unset) 2).map Task.parent
      = some (some 0) := by
  refine ⟨?_, ?_, ?_, ?_⟩
  · exact (C6_scoped_stack c1s2 0 _
      (fun s1 => createStep_openTasks s1 "inner" [] ctx0 none [] .unset)).1
  · exact (C6_scoped_stack c6s 0 (fun s1 => (s1, true)) (fun s1 => rfl)).2.1
      "task3" [] ctx0 [] .unset (createStep c6s "task3" [] ctx0 none [] .unset) 2 (by rfl)
  · exact (C6_scoped_stack s0 0 (fun s1 => (s1, true)) (fun s1 => rfl)).2.1
      "solo" [] ctx0 [] .unset (createStep s0 "solo" [] ctx0 none [] .unset) 0 (by rfl)
  · exact (C6_scoped_stack c1s2 0 (fun s1 => (s1, true)) (fun s1 => rfl)).2.2
      "child" [] ctx0 0 [] .unset (createStep c1s2 "child" [] ctx0 (some 0) [] .unset) 2
      (by rfl)

/-- C1: calling `mark_successful` on a task with a dependency that is not
SUCCESSFUL (or a subtask that is not COMPLETE) fails with a validation error
whose message contains "cannot be marked successful" and leaves the task's
state - in particular its status - unchanged; once every dependency is
SUCCESSFUL and every subtask COMPLETE (and the result payload validates), the
same `mark_successful` call succeeds and the task becomes SUCCESSFUL. -/
theorem C1_mark_successful_validation (s : GraphState) (k : Nat) (t : Task) (raw : PyVal)
    (h : findTask s k = some t) :
    ((∃ d, d ∈ t.dependsOn ∧ depSuccessful s d = false) ∨
       (∃ c, c ∈ t.subtasks ∧ subComplete s c = false) →
      markSuccessful s k raw = .error (.cannotBeMarkedSuccessful t.objective) ∧
        strContains (TaskError.cannotBeMarkedSuccessful t.objective).message
          "cannot be marked successful" ∧
        markSuccessfulStep s k raw = s)
    ∧ ((∀ d ∈ t.dependsOn, depSuccessful s d = true) →
       (∀ c ∈ t.subtasks, subComplete s c = true) →
       ∀ v, validateResult t.resultType raw = .ok v →
        markSuccessful s k raw =
          .ok (updateTask s k { t with status := .successful, result := some v }) ∧
        statusOf (markSuccessfulStep s k raw) k = some .successful) := by
  constructor
  · intro hbad
    have hup : upstreamOk s t = false := by
      rcases hbad with ⟨d, hd, hds⟩ | ⟨c, hc, hcs⟩
      · cases hall : t.dependsOn.all (fun d => depSuccessful s d) with
        | false => simp [upstreamOk, hall]
        | true =>
          rw [List.all_eq_true] at hall
          have := hall d hd
          rw [hds] at this
          cases this
      · cases hall : t.subtasks.all (fun c => subComplete s c) with
        | false => simp [upstreamOk, hall]
        | true =>
          rw [List.all_eq_true] at hall
          have := hall c hc
          rw [hcs] at this
          cases this
    have herr : markSuccessful s k raw = .error (.cannotBeMarkedSuccessful t.objective) := by
      simp [markSuccessful, h, hup]
    refine ⟨herr, ?_, ?_⟩
    · exact ⟨"Task " ++ t.objective ++ " ",
        " until all of its upstream dependencies and subtasks are completed", rfl⟩
    · simp [markSuccessfulStep, herr]
  · intro hdeps hsubs v hv
    have hup : upstreamOk s t = true := by
      simp only [upstreamOk, Bool.and_eq_true, List.all_eq_true]
      exact ⟨hdeps, hsubs⟩
    have hok : markSuccessful s k raw =
        .ok (updateTask s k { t with status := .successful, result := some v }) := by
      simp [markSuccessful, h, hup, hv]
    refine ⟨hok, ?_⟩
    simp [statusOf, markSuccessfulStep, hok, findTask_updateTask, h]

/-- C1 witness: in the two-task graph, marking the downstream task successful
fails while its dependency is pending, and succeeds after the dependency has
been marked successful. -/
theorem C1_witness :
    markSuccessful c1s2 1 .pyNone = .error (.cannotBeMarkedSuccessful "t2") ∧
    markSuccessfulStep c1s2 1 .pyNone = c1s2 ∧
    statusOf (markSuccessfulStep c1s2m 1 .pyNone) 1 = some .successful := by
  have h1 : findTask c1s2 1 = some c1t2 := by decide
  have part1 := (C1_mark_successful_validation c1s2 1 c1t2 .pyNone h1).1
    (Or.inl ⟨0, by decide, by decide⟩)
  have h2 : findTask c1s2m 1 = some c1t2 := by decide
  have part2 := (C1_mark_successful_validation c1s2m 1 c1t2 .pyNone h2).2
    (by decide) (by decide) .pyNone rfl
  exact ⟨part1.1, part1.2.2, part2.2⟩

/-- C2: `is_ready()` is true iff the task's status is in the INCOMPLETE set
and every dependency is SUCCESSFUL; a dependency-free pending task is ready
immediately, a SUCCESSFUL or FAILED task is not ready, and a task whose
dependency is not yet SUCCESSFUL (even if that dependency is itself ready) is
not ready. -/
theorem C2_is_ready (s : GraphState) (k : Nat) (t : Task)
    (h : findTask s k = some t) :
    (is_ready s k = true ↔
       (t.status ∈ INCOMPLETE_STATUSES ∧ ∀ d ∈ t.dependsOn, depSuccessful s d = true))
    ∧ (t.dependsOn = [] → t.status = .pending → is_ready s k = true)
    ∧ (t.status = .successful ∨ t.status = .failed → is_ready s k = false)
    ∧ (∀ d td, d ∈ t.dependsOn → findTask s d = some td → td.status ≠ .successful →
        is_ready s k = false) := by
  have hmain : is_ready s k = true ↔
      (t.status ∈ INCOMPLETE_STATUSES ∧ ∀ d ∈ t.dependsOn, depSuccessful s d = true) := by
    simp [is_ready, h, Bool.and_eq_true, List.all_eq_true]
  refine ⟨hmain, ?_, ?_, ?_⟩
  · intro h1 h2
    rw [hmain]
    refine ⟨by rw [h2]; simp [INCOMPLETE_STATUSES], ?_⟩
    intro d hd
    rw [h1] at hd
    cases hd
  · intro hst
    cases hr : is_ready s k with
    | false => rfl
    | true =>
      have hmem := (hmain.mp hr).1
      rcases hst with h' | h' <;> rw [h'] at hmem <;> simp [INCOMPLETE_STATUSES] at hmem
  · intro d td hd hfd hne
    cases hr : is_ready s k with
    | false => rfl
    | true =>
      have hdep := (hmain.mp hr).2 d hd
      simp [depSuccessful, findTask, hfd] at hdep
      rw [show lookupTask s.tasks d = some td from hfd] at hdep
      simp at hdep
      exact (hne hdep).elim

/-- C2 witness: in the two-task graph, the upstream task is ready and the
downstream one is not; after the upstream task is marked successful the
readiness of both flips. -/
theorem C2_witness :
    is_ready c1s2 0 = true ∧ is_ready c1s2 1 = false ∧
    is_ready c1s2m 1 = true ∧ is_ready c1s2m 0 = false := by
  have h0 : findTask c1s2 0 = some c1t1 := by decide
  have h1 : findTask c1s2 1 = some c1t2 := by decide
  have h0m : findTask c1s2m 0 = some { c1t1 with status := .successful, result := some .pyNone } := by
    decide
  have h1m : findTask c1s2m 1 = some c1t2 := by decide
  refine ⟨?_, ?_, ?_, ?_⟩
  · exact (C2_is_ready c1s2 0 c1t1 h0).2.1 rfl rfl
  · exact (C2_is_ready c1s2 1 c1t2 h1).2.2.2 0 c1t1 (by decide) h0 (by decide)
  · exact (C2_is_ready c1s2m 1 c1t2 h1m).1.mpr (by decide)
  · exact (C2_is_ready c1s2m 0 _ h0m).2.2.1 (Or.inl rfl)

/-- C3 counterexample: a task that has reached the terminal state SUCCESSFUL
is nevertheless transitioned to FAILED, with its result overwritten, by a
subsequent `mark_failed` call - exactly the sequence the repository's test
`test_task_mark_successful_and_mark_failed` asserts.  This refutes the claim
that no further transition is possible once a terminal state is reached. -/
theorem C3_counterexample :
    statusOf c3sSucc 0 = some .successful ∧
    resultOf c3sSucc 0 = some (some (.int 5)) ∧
    statusOf (markFailed c3sSucc 0 "test error") 0 = some .failed ∧
    resultOf (markFailed c3sSucc 0 "test error") 0 = some (some (.str "test error")) := by
  decide

/-- C3 (amended): terminal states are not enforced as immutable.  For every
task, regardless of its current status (terminal or not), `mark_failed`
unconditionally sets status FAILED and stores the reason as the result,
`mark_skipped` unconditionally sets status SKIPPED, and `mark_running`
unconditionally sets status RUNNING; only `mark_successful` is guarded, and
by dependency/subtask completeness rather than by terminality. -/
theorem C3_terminal_not_enforced (s : GraphState) (k : Nat) (t : Task) (reason : String)
    (h : findTask s k = some t) :
    statusOf (markFailed s k reason) k = some .failed ∧
    resultOf (markFailed s k reason) k = some (some (.str reason)) ∧
    statusOf (markSkipped s k) k = some .skipped ∧
    statusOf (markRunning s k) k = some .running := by
  refine ⟨?_, ?_, ?_, ?_⟩ <;>
    simp [markFailed, markSkipped, markRunning, statusOf, resultOf, h, findTask_updateTask]

/-- C3 witness: the amended statement applied to the already-successful task
of the counterexample state. -/
theorem C3_witness :
    statusOf (markFailed c3sSucc 0 "test error") 0 = some .failed ∧
    resultOf (markFailed c3sSucc 0 "test error") 0 = some (some (.str "test error")) ∧
    statusOf (markSkipped c3sSucc 0) 0 = some .skipped ∧
    statusOf (markRunning c3sSucc 0) 0 = some .running := by
  exact C3_terminal_not_enforced c3sSucc 0
    { id := fingerprint "Test Objective", objective := "Test Objective",
      status := .successful, result := some (.int 5), resultType := .intType,
      dependsOn := [], downstreams := [], parent := none, subtasks := [], agents := [] }
    "test error" (by decide)

/-- C4 counterexample: with `result_type` the three-element option sequence
`(4, 5, 6)`, calling `mark_successful` with the integer 5 succeeds and stores
the literal value 5 - even though 5 is out of range as an index into the
sequence, as the success tool's own rejection of the same integer shows.
This refutes the claim that the `mark_successful` pathway treats its input as
an index into the option sequence (the repository's test
`test_tuple_of_ints_result` pins the value-based behaviour). -/
theorem C4_counterexample :
    statusOf (markSuccessfulStep c4sInts 0 (.int 5)) 0 = some .successful ∧
    resultOf (markSuccessfulStep c4sInts 0 (.int 5)) 0 = some (some (.int 5)) ∧
    successToolRun c4sInts 0 (.int 5) = .error (.resultValidation "invalid option index") := by
  exact ⟨by decide, by decide, rfl⟩

/-- C4 (amended): when `result_type` is a fixed ordered sequence of literal
option values, the success tool accepts an integer index into the sequence,
stores the option at that index, and fails with a validation error on an
out-of-range index or a non-integer input; `mark_successful` itself, by
contrast, validates the raw value by membership in the option sequence,
storing the value itself and rejecting values outside the sequence. -/
theorem C4_options_index_tool (s : GraphState) (k : Nat) (t : Task) (opts : List PyVal)
    (h : findTask s k = some t) (hrt : t.resultType = .options opts)
    (hup : upstreamOk s t = true) :
    (∀ (i : Int) (h0 : 0 ≤ i) (hlt : i.toNat < opts.length),
       successToolRun s k (.int i) =
         .ok (updateTask s k
           { t with status := .successful, result := some (opts.get ⟨i.toNat, hlt⟩) }))
    ∧ (∀ i : Int, ¬ (0 ≤ i ∧ i.toNat < opts.length) →
        successToolRun s k (.int i) = .error (.resultValidation "invalid option index"))
    ∧ (∀ v : PyVal, (∀ j : Int, v ≠ .int j) →
        successToolRun s k v =
          .error (.resultValidation "the result must be the integer index of an option"))
    ∧ (∀ v ∈ opts, markSuccessful s k v =
        .ok (updateTask s k { t with status := .successful, result := some v }))
    ∧ (∀ v : PyVal, v ∉ opts →
        markSuccessful s k v = .error (.resultValidation "result is not one of the allowed options")) := by
  refine ⟨?_, ?_, ?_, ?_, ?_⟩
  · intro i h0 hlt
    have hmem : opts.get ⟨i.toNat, hlt⟩ ∈ opts := List.get_mem opts i.toNat hlt
    simp only [successToolRun, h, hrt]
    rw [dif_pos ⟨h0, hlt⟩]
    simp [markSuccessful, h, hrt, hup, validateResult, hmem]
  · intro i hni
    simp only [successToolRun, h, hrt]
    rw [dif_neg hni]
  · intro v hv
    cases v with
    | int j => exact absurd rfl (hv j)
    | str sv => simp [successToolRun, h, hrt]
    | pyNone => simp [successToolRun, h, hrt]
  · intro v hvmem
    simp [markSuccessful, h, hrt, hup, validateResult, hvmem]
  · intro v hvnot
    simp [markSuccessful, h, hrt, hup, validateResult, hvnot]

/-- C4 witness: success-tool index 1 stores the option "good"; the literal
string "good" is rejected as a non-integer; index 3 is rejected as out of
range. -/
theorem C4_witness :
    successToolRun c4sOpt 0 (.int 1) =
      .ok (updateTask c4sOpt 0
        { c4tOpt with status := .successful, result := some (.str "good") }) ∧
    successToolRun c4sOpt 0 (.str "good") =
      .error (.resultValidation "the result must be the integer index of an option") ∧
    successToolRun c4sOpt 0 (.int 3) = .error (.resultValidation "invalid option index") := by
  have h : findTask c4sOpt 0 = some c4tOpt := by decide
  have T := C4_options_index_tool c4sOpt 0 c4tOpt c4opts h (by decide) (by decide)
  refine ⟨?_, ?_, ?_⟩
  · exact T.1 1 (by decide) (by decide)
  · exact T.2.2.1 (.str "good") (fun j hj => PyVal.noConfusion hj)
  · exact T.2.1 3 (by decide)

/-- C7: `get_agents()` resolves the first non-empty source in strict
precedence order: the task's own explicit agents list; else the nearest
ancestor along the parent chain with a non-empty agents list (in particular a
parent's explicit agent wins over an enclosing flow's agent); else the agent
bound by the innermost enclosing flow scope active at the time of the query -
a live lookup against the current state, so a task constructed inside a flow
resolves to the default agent once the flow scope has exited; else the
process-wide default agent. -/
theorem C7_agent_resolution (s : GraphState) (k : Nat) (t : Task)
    (h : findTask s k = some t) :
    (t.agents ≠ [] → get_agents s k = t.agents)
    ∧ (∀ l, t.agents = [] → ancestorAgents s s.tasks.length t.parent = some l →
        get_agents s k = l)
    ∧ (∀ a, t.agents = [] → ancestorAgents s s.tasks.length t.parent = none →
        flowAgent s = some a → get_agents s k = [a])
    ∧ (t.agents = [] → ancestorAgents s s.tasks.length t.parent = none →
        flowAgent s = none → get_agents s k = [defaultAgent])
    ∧ (∀ p tp, t.agents = [] → t.parent = some p → findTask s p = some tp →
        tp.agents ≠ [] → get_agents s k = tp.agents) := by
  refine ⟨?_, ?_, ?_, ?_, ?_⟩
  · intro hne
    cases hag : t.agents with
    | nil => exact absurd hag hne
    | cons x xs => simp [get_agents, h, hag]
  · intro l hag hanc
    simp [get_agents, h, hag, hanc]
  · intro a hag hanc hfa
    simp [get_agents, h, hag, hanc, hfa]
  · intro hag hanc hfa
    simp [get_agents, h, hag, hanc, hfa]
  · intro p tp hag hp hftp hne
    have hlen : ∃ m, s.tasks.length = m + 1 := by
      cases hts : s.tasks with
      | nil =>
        rw [findTask, hts] at hftp
        exact absurd hftp (by simp [lookupTask])
      | cons x xs => exact ⟨xs.length, rfl⟩
    obtain ⟨m, hm⟩ := hlen
    cases hta : tp.agents with
    | nil => exact absurd hta hne
    | cons x xs =>
      simp [get_agents, h, hag, hp, hm, ancestorAgents, hftp, hta]

/-- C7 witness: in the flow/parent/child scenario the parent's explicit agent
wins over the flow's agent; a task alone inside a flow resolves to the flow's
agent while the flow is open and to the default agent after the flow scope
has exited. -/
theorem C7_witness :
    get_agents c7s 0 = [agentA] ∧
    get_agents c7s 1 = [agentA] ∧
    get_agents c7sf 0 = [agentB] ∧
    get_agents (exitFlow c7sf) 0 = [defaultAgent] := by
  have h0 : findTask c7s 0 = some c7tp := by decide
  have h1 : findTask c7s 1 = some c7tc := by decide
  have hf : findTask c7sf 0 = some c7tf := by decide
  have hfx : findTask (exitFlow c7sf) 0 = some c7tf := by decide
  refine ⟨?_, ?_, ?_, ?_⟩
  · exact (C7_agent_resolution c7s 0 c7tp h0).1 (by decide)
  · exact (C7_agent_resolution c7s 1 c7tc h1).2.2.2.2 0 c7tp rfl rfl h0 (by decide)
  · exact (C7_agent_resolution c7sf 0 c7tf hf).2.2.1 agentB rfl rfl rfl
  · exact (C7_agent_resolution (exitFlow c7sf) 0 c7tf hfx).2.2.2.1 rfl rfl rfl

/-- C8 counterexample: the task id is an 8-hex-character digest of the
objective (the test `test_stable_id` pins the 8-hex format), so two distinct
objectives can receive the identical id: the tasks constructed with the
differing objectives "Aa" and "BB" share one id.  This refutes the claim that
any difference in the objective produces a different id. -/
theorem C8_counterexample :
    idOf c8s 0 = idOf c8s 1 ∧
    objectiveOf c8s 0 ≠ objectiveOf c8s 1 ∧
    fingerprint "Aa" = fingerprint "BB" ∧
    "Aa" ≠ "BB" := by
  refine ⟨by decide, by decide, by decide, by decide⟩

/-- C8 (amended): the task id is a pure deterministic function of the
objective: any two constructions with the identical objective - in whatever
states - receive the identical id, namely the 8-hex-character content digest
of the objective; distinct objectives therefore generally, but not
universally, receive distinct ids (the short digest admits collisions, an
accepted risk per the spec; the tested pair "Test Objective" versus
"Test Objective+" does differ); and distinct task instances remain
distinguishable regardless of content, because consecutive constructions
receive distinct instance keys. -/
theorem C8_id_deterministic
    (s1 s2 : GraphState) (o : String) (d1 d2 : List Nat) (c1 c2 : CtxVal)
    (p1 p2 : Option Nat) (a1 a2 : List Agent) (r1 r2 : ResultType)
    (s1' s2' : GraphState) (k1 k2 : Nat)
    (h1 : createTask s1 o d1 c1 p1 a1 r1 = .ok (s1', k1))
    (h2 : createTask s2 o d2 c2 p2 a2 r2 = .ok (s2', k2)) :
    idOf s1' k1 = some (fingerprint o) ∧
    idOf s2' k2 = some (fingerprint o) ∧
    idOf s1' k1 = idOf s2' k2 ∧
    (fingerprint o).length = 8 ∧
    fingerprint "Test Objective" ≠ fingerprint "Test Objective+" ∧
    (∀ (o3 : String) (d3 : List Nat) (c3 : CtxVal) (p3 : Option Nat) (a3 : List Agent)
      (r3 : ResultType) (s'' : GraphState) (k3 : Nat),
      createTask s1' o3 d3 c3 p3 a3 r3 = .ok (s'', k3) → k3 ≠ k1) := by
  obtain ⟨hk1, hs1, _, _⟩ := createTask_ok_shape s1 o d1 c1 p1 a1 r1 s1' k1 h1
  obtain ⟨hk2, hs2, _, _⟩ := createTask_ok_shape s2 o d2 c2 p2 a2 r2 s2' k2 h2
  have hid1 : idOf s1' k1 = some (fingerprint o) := by
    rw [hk1, hs1, idOf, findTask, lookupTask_core, if_pos rfl]
    rfl
  have hid2 : idOf s2' k2 = some (fingerprint o) := by
    rw [hk2, hs2, idOf, findTask, lookupTask_core, if_pos rfl]
    rfl
  refine ⟨hid1, hid2, by rw [hid1, hid2], ?_, by decide, ?_⟩
  · simp [fingerprint, toHex8]
  · intro o3 d3 c3 p3 a3 r3 s'' k3 h3
    obtain ⟨hk3, _, _, _⟩ := createTask_ok_shape s1' o3 d3 c3 p3 a3 r3 s'' k3 h3
    rw [hk3, hk1, hs1, createTaskCore_nextKey]
    omega

/-- C8 witness: two independent constructions with the objective
"Test Objective" receive the identical id, and a further construction gets a
distinct instance key. -/
theorem C8_witness :
    idOf c8w1 0 = some (fingerprint "Test Objective") ∧
    idOf c8w2 1 = some (fingerprint "Test Objective") ∧
    idOf c8w1 0 = idOf c8w2 1 ∧
    (fingerprint "Test Objective").length = 8 ∧
    fingerprint "Test Objective" ≠ fingerprint "Test Objective+" ∧
    (1 : Nat) ≠ 0 := by
  have T := C8_id_deterministic s0 c8w1 "Test Objective" [] [] ctx0 ctx0 none none [] []
    .unset .unset c8w1 c8w2 0 1 (by rfl) (by rfl)
  exact ⟨T.1, T.2.1, T.2.2.1, T.2.2.2.1, T.2.2.2.2.1,
    T.2.2.2.2.2 "Test Objective" [] ctx0 none [] .unset c8w2 1 (by rfl)⟩

theorem doCall_stats (st : RunSim) :
    (doCall st).trace.length = st.trace.length + 1 ∧
    (doCall st).remaining = st.remaining - 1 := by
  simp [doCall]

theorem doCall_range (st : RunSim) (h : st.trace = List.range st.trace.length) :
    (doCall st).trace = List.range ((doCall st).trace.length) := by
  obtain ⟨h1, _⟩ := doCall_stats st
  rw [h1, List.range_succ, ← h]
  show st.trace ++ [st.trace.length] = st.trace ++ [st.trace.length]
  rfl

theorem runTurn_stats (c : Nat) : ∀ st : RunSim,
    (runTurn c st).trace.length = st.trace.length + min c st.remaining ∧
    (runTurn c st).remaining = st.remaining - min c st.remaining := by
  induction c with
  | zero => intro st; simp [runTurn]
  | succ n ih =>
    intro st
    by_cases h : st.remaining = 0
    · simp [runTurn, h]
    · simp only [runTurn, if_neg h]
      obtain ⟨ih1, ih2⟩ := ih (doCall st)
      obtain ⟨hd1, hd2⟩ := doCall_stats st
      constructor
      · rw [ih1, hd1, hd2]
        omega
      · rw [ih2, hd2]
        omega

theorem runTurn_range (c : Nat) : ∀ st : RunSim, st.trace = List.range st.trace.length →
    (runTurn c st).trace = List.range ((runTurn c st).trace.length) := by
  induction c with
  | zero => intro st h; simpa [runTurn] using h
  | succ n ih =>
    intro st h
    by_cases hz : st.remaining = 0
    · simpa [runTurn, hz] using h
    · simp only [runTurn, if_neg hz]
      exact ih (doCall st) (doCall_range st h)

theorem runLoop_stats (tn c : Nat) : ∀ st : RunSim,
    (runLoop tn c st).trace.length = st.trace.length + min (tn * c) st.remaining ∧
    (runLoop tn c st).remaining = st.remaining - min (tn * c) st.remaining := by
  induction tn with
  | zero => intro st; simp [runLoop]
  | succ n ih =>
    intro st
    by_cases h : st.remaining = 0
    · simp [runLoop, h]
    · simp only [runLoop, if_neg h]
      obtain ⟨t1, t2⟩ := runTurn_stats c st
      obtain ⟨l1, l2⟩ := ih (runTurn c st)
      rw [Nat.succ_mul]
      constructor
      · rw [l1, t1, t2]
        generalize n * c = m
        omega
      · rw [l2, t2]
        generalize n * c = m
        omega

theorem runLoop_range (tn c : Nat) : ∀ st : RunSim,
    st.trace = List.range st.trace.length →
    (runLoop tn c st).trace = List.range ((runLoop tn c st).trace.length) := by
  induction tn with
  | zero => intro st h; simpa [runLoop] using h
  | succ n ih =>
    intro st h
    by_cases hz : st.remaining = 0
    · simpa [runLoop, hz] using h
    · simp only [runLoop, if_neg hz]
      exact ih (runTurn c st) (runTurn_range c st h)

theorem runTask_stats (T C R : Nat) :
    (runTask T C R).trace.length = min (T * C) R ∧
    (runTask T C R).remaining = R - min (T * C) R ∧
    (runTask T C R).trace = List.range (min (T * C) R) := by
  obtain ⟨h1, h2⟩ := runLoop_stats T C { trace := [], remaining := R }
  have h3 := runLoop_range T C { trace := [], remaining := R } (by simp)
  refine ⟨by simpa using h1, by simpa using h2, ?_⟩
  rw [runTask] at *
  rw [h3, h1]
  simp

/-- C9: for every turn limit T >= 1 and per-turn call limit C >= 1, running a
task that requires exactly T*C model calls with
`run(max_turns := T, max_calls_per_turn := C)` produces exactly T*C model
invocations, each individually recorded in the trace (none coalesced: the
trace is the full sequence of T*C distinct call events); and when the task
needs more calls than the limits allow, the run stops at exactly T*C observed
calls with the task left incomplete - the loop is a total function and raises
no error. -/
theorem C9_run_loop_accounting (T C : Nat) (hT : 1 ≤ T) (hC : 1 ≤ C) :
    ((runTask T C (T * C)).trace.length = T * C ∧
      (runTask T C (T * C)).trace = List.range (T * C) ∧
      (runTask T C (T * C)).completed = true)
    ∧ (∀ R, T * C < R →
        (runTask T C R).trace.length = T * C ∧
        (runTask T C R).completed = false) := by
  obtain ⟨h1, h2, h3⟩ := runTask_stats T C (T * C)
  constructor
  · refine ⟨by simpa using h1, by simpa using h3, ?_⟩
    simp [RunSim.completed, h2]
  · intro R hR
    obtain ⟨g1, g2, _⟩ := runTask_stats T C R
    have hmin : min (T * C) R = T * C := by omega
    refine ⟨by rw [g1, hmin], ?_⟩
    simp only [RunSim.completed, g2, hmin]
    simp
    omega

/-- C9 witness: the test case T = 3, C = 2: exactly six individually recorded
calls, completing a task that needs exactly six; a task needing seven is cut
off at six calls and left incomplete. -/
theorem C9_witness :
    (runTask 3 2 6).trace.length = 6 ∧
    (runTask 3 2 6).trace = List.range 6 ∧
    (runTask 3 2 6).completed = true ∧
    (runTask 3 2 7).trace.length = 6 ∧
    (runTask 3 2 7).completed = false := by
  have T := C9_run_loop_accounting 3 2 (by decide) (by decide)
  have h7 := T.2 7 (by decide)
  exact ⟨T.1.1, T.1.2.1, T.1.2.2, h7.1, h7.2⟩

/-- C10: settings construction is gated by the CONTROL_FLOW_TEST_MODE
environment variable at import time: when it is set to a non-empty string,
`ControlFlowSettings` computes `env_file` as the empty string and so loads no
env file at all; when it is unset, settings are read from
`~/.control_flow/.env` and `./.env`; in both cases
`Settings.max_agent_iterations` defaults to 10. -/
theorem C10_settings_env (v : String) (hv : v ≠ "") :
    controlFlowEnvFile (some v) = .emptyString ∧
    envFilesLoaded (controlFlowEnvFile (some v)) = [] ∧
    controlFlowEnvFile none = .paths ["~/.control_flow/.env", ".env"] ∧
    envFilesLoaded (controlFlowEnvFile none) = ["~/.control_flow/.env", ".env"] ∧
    defaultSettings.max_agent_iterations = 10 := by
  have h1 : controlFlowEnvFile (some v) = .emptyString := by
    simp [controlFlowEnvFile, pyTruthy, hv]
  exact ⟨h1, by rw [h1]; rfl, rfl, rfl, rfl⟩

/-- C10 witness: the gate evaluated with the variable set to "1". -/
theorem C10_witness :
    controlFlowEnvFile (some "1") = .emptyString ∧
    envFilesLoaded (controlFlowEnvFile (some "1")) = [] ∧
    controlFlowEnvFile none = .paths ["~/.control_flow/.env", ".env"] ∧
    envFilesLoaded (controlFlowEnvFile none) = ["~/.control_flow/.env", ".env"] ∧
    defaultSettings.max_agent_iterations = 10 :=
  C10_settings_env "1" (by decide)

end ControlFlow
